import Mathlib

/-!
Verification of the semantic-retrieval core of the GiveAGift server
(`supabase/functions/make-server-db41cb13/index.ts`).

Modelling conventions:
* JavaScript numbers stored in records (embedding components) are modelled as
  rationals (`ℚ`); every finite float is a rational.  `Math.sqrt` is modelled
  by `Real.sqrt`, so similarity scores live in `ℝ`.
* JavaScript record fields that may be `undefined` are modelled as `Option`.
  JS truthiness of a string-valued field (`undefined`, `null` and `""` are
  falsy) is modelled by `jsTruthy`.
* The key-value store module (`kv_store.tsx`) is imported by the server but is
  not part of the sources; it is modelled from the spec (§4.2) as an
  association list of string keys to records, with prefix listing returning
  values in store order.
* The relational mirror (Supabase Postgres tables `profiles` and
  `memory_items`) is an external collaborator; upsert-by-primary-key and
  delete-by-equality-filters are modelled from the spec (§2, §3).
* The remote Gemini embedding model is an opaque parameter
  `model : String → List ℚ`.
-/

namespace GiveAGift

/-- A JSON-like record as stored in the key-value store.  The server stores
profile, category and note objects under a shared key namespace and
distinguishes them only by which fields are present ("shape"), so one record
type with optional fields models all three. -/
structure Item where
  id : String := ""
  name : Option String := none
  description : Option String := none
  avatar : Option String := none
  entry : Option String := none
  categoryId : Option String := none
  categoryName : Option String := none
  profileId : Option String := none
  userId : Option String := none
  embedding : Option (List ℚ) := none
  createdAt : Option String := none
  updatedAt : Option String := none
  deriving DecidableEq, Repr

/-- JS truthiness for an optional string: `undefined` and `""` are falsy. -/
def jsTruthy : Option String → Bool
  | none => false
  | some s => s != ""

/-- JS `v || d` for an optional string `v`. -/
def jsOr (v : Option String) (d : String) : String :=
  match v with
  | none => d
  | some s => if s = "" then d else s

/-- JS `String.prototype.toLowerCase`, modelled character-wise (ASCII case
mapping, as in `Char.toLower`). -/
def jsToLower (s : String) : String :=
  String.mk (List.map Char.toLower s.data)

/-- JS `String.prototype.trim`: strip leading and trailing whitespace. -/
def jsTrim (s : String) : String :=
  String.mk (((s.data.dropWhile Char.isWhitespace).reverse.dropWhile
    Char.isWhitespace).reverse)

/-- String prefix test (the key-value store lists records by key prefix). -/
def hasPfx (p k : String) : Bool :=
  p.data.isPrefixOf k.data

/-- Modelled from the spec: the KeyValueStore (§4.2) backing `kv_store.tsx`,
which is not among the sources.  Namespaced string keys, each mapping to one
record; modelled as an association list in insertion order. -/
abbrev KV : Type := List (String × Item)

/-- Modelled from the spec: `listByPrefix` returns all values whose key has
the given prefix.  The spec leaves the order unspecified; the model returns
them in store order, which is what "listing order" refers to below. -/
def kvGetByPfx (st : KV) (p : String) : List Item :=
  (List.filter (fun e => hasPfx p e.1) st).map (·.2)

/-- Modelled from the spec: `get` returns the record at exactly this key. -/
def kvGet (st : KV) (k : String) : Option Item :=
  (List.find? (fun e => e.1 == k) st).map (·.2)

/-- Modelled from the spec: `set` binds a key to one record, overwriting any
existing binding for that key. -/
def kvSet (st : KV) (k : String) (v : Item) : KV :=
  if List.any st (fun e => e.1 == k) then
    List.map (fun e => if e.1 == k then (k, v) else e) st
  else
    List.append st [(k, v)]

/-- Modelled from the spec: `deleteMany` removes the bindings of all listed
keys. -/
def kvMdel (st : KV) (ks : List String) : KV :=
  List.filter (fun e => !(List.contains ks e.1)) st

/-- Modelled from the spec: `delete` removes one key's binding. -/
def kvDel (st : KV) (k : String) : KV :=
  kvMdel st [k]

/-- Key namespace root for one user (`user:{userId}:profile:`). -/
def userPfx (uid : String) : String :=
  "user:" ++ uid ++ ":profile:"

/-- Key of a profile record (`user:{userId}:profile:{profileId}`). -/
def profileKey (uid pid : String) : String :=
  userPfx uid ++ pid

/-- Key prefix of one profile's notes. -/
def notePfx (uid pid : String) : String :=
  userPfx uid ++ pid ++ ":note:"

/-- Key prefix of one profile's categories. -/
def catPfx (uid pid : String) : String :=
  userPfx uid ++ pid ++ ":category:"

/-- Key of a note record. -/
def noteKey (uid pid nid : String) : String :=
  notePfx uid pid ++ nid

/-- Key of a category record. -/
def catKey (uid pid cid : String) : String :=
  catPfx uid pid ++ cid

/-- `memory_items` row of the relational mirror (modelled from the spec's
MemoryRow: denormalized projection of a note). -/
structure MemoryRow where
  id : String
  user_id : String
  profile_id : String
  profile_name : Option String
  entry : Option String
  embedding : List ℚ
  created_at : String
  updated_at : String
  deriving DecidableEq, Repr

/-- `profiles` row of the relational mirror. -/
structure ProfileRow where
  id : String
  user_id : String
  name : String
  avatar : String
  description : String
  created_at : String
  deriving DecidableEq, Repr

/-- Modelled from the spec: Supabase `upsert` keyed on the primary key `id` —
replaces the row with that id if present, inserts otherwise. -/
def upsertMemory (rows : List MemoryRow) (r : MemoryRow) : List MemoryRow :=
  if List.any rows (fun x => x.id == r.id) then
    List.map (fun x => if x.id == r.id then r else x) rows
  else
    List.append rows [r]

/-- Modelled from the spec: upsert into the mirror `profiles` table by id. -/
def upsertProfileRow (rows : List ProfileRow) (r : ProfileRow) : List ProfileRow :=
  if List.any rows (fun x => x.id == r.id) then
    List.map (fun x => if x.id == r.id then r else x) rows
  else
    List.append rows [r]

/-- Sum of pointwise products, i.e. the loop
`for i: dotProduct += vecA[i] * vecB[i]` (the loop runs over equal-length
vectors at its use site). -/
def dotQ (a b : List ℚ) : ℚ :=
  (List.zipWith (· * ·) a b).sum

/-- Sum of squares accumulated by the same loop (`magA += vecA[i] * vecA[i]`
before the square root is taken). -/
def sumSq (a : List ℚ) : ℚ :=
  dotQ a a

/-- `cosineSimilarity` (index.ts lines 688–708): returns 0 when either vector
is absent/empty or the lengths differ; otherwise the dot product divided by
the product of the two magnitudes (square roots of the sums of squares), with
a guard returning 0 when either magnitude is 0.  `Math.sqrt` is modelled by
`Real.sqrt`. -/
noncomputable def cosineSimilarity (vecA vecB : List ℚ) : ℝ :=
  if vecA.length = 0 ∨ vecB.length = 0 then 0
  else if vecA.length ≠ vecB.length then 0
  else
    let dotProduct : ℝ := (dotQ vecA vecB : ℚ)
    let magA : ℝ := Real.sqrt ((sumSq vecA : ℚ) : ℝ)
    let magB : ℝ := Real.sqrt ((sumSq vecB : ℚ) : ℝ)
    if magA = 0 ∨ magB = 0 then 0
    else dotProduct / (magA * magB)

/-- `generateSimpleEmbedding` (index.ts lines 670–685): for empty or
whitespace-only text return the all-zero vector of length 768 without calling
the remote model, else return the remote model's vector.  The remote Gemini
call is the opaque parameter `model`. -/
def generateSimpleEmbedding (model : String → List ℚ) (text : String) : List ℚ :=
  if jsTrim text = "" then List.replicate 768 0
  else model text

/-- One store access performed by a handler; used to state in which order
validation errors and store operations happen. -/
inductive StoreOp where
  | kvRead (pfx : String)
  | kvWrite (key : String)
  | kvDelete (keys : List String)
  | mirrorWrite (table : String)
  | mirrorDelete (table : String)
  deriving DecidableEq, Repr

/-- A note together with the similarity attached by the search handler
(the JS spread `{...note, similarity}`). -/
structure ScoredNote where
  note : Item
  similarity : ℝ

/-- Outcome of the `search-gifts` handler.  `invalidQuery` is the 400
"Query string is required" response, `profileNotFound` the 404 response,
`noNotes` the `gifts: [], matchedNotes: [], message: "No notes found…"`
response, and `ranked` the success response (carrying `usedProfile`,
`totalNotesSearched` and the scored, sorted, truncated notes from which the
`relevantNotes` presentation objects are derived). -/
inductive SearchOut where
  | invalidQuery
  | profileNotFound (name : String)
  | noNotes
  | ranked (usedProfile : Option String) (totalNotesSearched : Nat)
      (results : List ScoredNote)

/-- The profile-name match used by the `search-gifts` handler (index.ts
lines 597–601): `item.name && item.name.toLowerCase().trim() ===
profileName.toLowerCase().trim()`. -/
def nameMatches (pname : String) (it : Item) : Bool :=
  jsTruthy it.name && (jsTrim (jsToLower (jsOr it.name "")) == jsTrim (jsToLower pname))

/-- The name-resolution step of `search-gifts` (index.ts lines 592–612):
when no truthy `profileId` was supplied but a truthy `profileName` was, list
every record under the user's key namespace, keep those whose `name` field
matches, 404 when none match, otherwise use the first match's `id`. -/
def resolveProfileId (st : KV) (uid : String)
    (profileId profileName : Option String) : Except SearchOut (Option String) :=
  if !jsTruthy profileId && jsTruthy profileName then
    let allProfiles := kvGetByPfx st (userPfx uid)
    let profiles := allProfiles.filter (nameMatches (jsOr profileName ""))
    match profiles with
    | [] => Except.error (SearchOut.profileNotFound (jsOr profileName ""))
    | p :: _ => Except.ok (some p.id)
  else Except.ok profileId

/-- Store reads performed by the name-resolution step. -/
def resolveOps (uid : String) (profileId profileName : Option String) : List StoreOp :=
  if !jsTruthy profileId && jsTruthy profileName then [StoreOp.kvRead (userPfx uid)]
  else []

/-- Key prefix the search handler loads candidates from (index.ts lines
617–622): the resolved profile's note namespace when a profile was resolved,
otherwise the user's whole namespace. -/
def searchPfx (uid : String) (resolved : Option String) : String :=
  if jsTruthy resolved then notePfx uid (jsOr resolved "")
  else userPfx uid

/-- The sort comparator of `scoredNotes` — the JS comparator
`(a, b) => b.similarity - a.similarity` orders by descending similarity and
JS `Array.prototype.sort` is stable. -/
noncomputable def simLe (a b : ScoredNote) : Bool :=
  decide (b.similarity ≤ a.similarity)

/-- The per-note scoring map of `scoredNotes` (index.ts lines 638–641):
`{...note, similarity: cosineSimilarity(queryEmbedding, note.embedding || [])}`. -/
noncomputable def score (q : List ℚ) (note : Item) : ScoredNote :=
  ⟨note, cosineSimilarity q (note.embedding.getD [])⟩

/-- The `scoredNotes` pipeline (index.ts lines 637–643): score every
candidate, stable-sort by descending similarity, truncate to the top 10. -/
noncomputable def rankNotes (q : List ℚ) (notes : List Item) : List ScoredNote :=
  (List.mergeSort (notes.map (score q)) simLe).take 10

/-- The `search-gifts` handler (index.ts lines 565–667), after
authentication: validate the query, resolve the profile scope, embed the
query, load and shape-filter the candidates, and either report the empty
candidate set or return the ranked notes.  Paired with the trace of store
operations it performed. -/
noncomputable def searchGifts (st : KV) (uid : String) (model : String → List ℚ)
    (query profileId profileName : Option String) : SearchOut × List StoreOp :=
  if jsTruthy query then
    match resolveProfileId st uid profileId profileName with
    | Except.error e => (e, resolveOps uid profileId profileName)
    | Except.ok resolved =>
      let queryEmbedding := generateSimpleEmbedding model (jsOr query "")
      let pfx := searchPfx uid resolved
      let allNotes := kvGetByPfx st pfx
      let notes := allNotes.filter (fun it => it.entry.isSome)
      let ops := resolveOps uid profileId profileName ++ [StoreOp.kvRead pfx]
      if notes = [] then (SearchOut.noNotes, ops)
      else (SearchOut.ranked resolved notes.length (rankNotes queryEmbedding notes), ops)
  else (SearchOut.invalidQuery, [])

/-- The shape filter selecting "actual profile objects" out of a shared key
namespace (index.ts lines 114–117 and 159–162):
`item.name && item.description && !item.categoryName && !item.entry`. -/
def isProfileShaped (it : Item) : Bool :=
  jsTruthy it.name && jsTruthy it.description &&
    !jsTruthy it.categoryName && !jsTruthy it.entry

/-- Outcome of the create-profile handler. -/
inductive CreateOut where
  | limitReached
  | invalidInput (msg : String)
  | created (profile : Item)
  deriving DecidableEq, Repr

/-- The create-profile handler (index.ts lines 134–235), after
authentication: read the user's records and count profile-shaped ones (the
5-profile limit check), then validate `name` and `description`, then write
the profile to the key-value store and upsert it into the mirror `profiles`
table.  Returns the outcome, both updated stores, and the trace of store
operations in the order they happened. -/
def createProfile (st : KV) (profs : List ProfileRow) (uid : String)
    (name avatar description : Option String) (newId now : String) :
    CreateOut × KV × List ProfileRow × List StoreOp :=
  let allItems := kvGetByPfx st (userPfx uid)
  let existing := allItems.filter isProfileShaped
  let readOps := [StoreOp.kvRead (userPfx uid)]
  if 5 ≤ existing.length then (CreateOut.limitReached, st, profs, readOps)
  else if !jsTruthy name || jsTrim (jsOr name "") = "" then
    (CreateOut.invalidInput "Profile name is required", st, profs, readOps)
  else if !jsTruthy description || jsTrim (jsOr description "") = "" then
    (CreateOut.invalidInput "Profile description is required", st, profs, readOps)
  else
    let profile : Item :=
      { id := newId
        name := some (jsTrim (jsOr name ""))
        avatar := some (jsOr avatar "")
        description := some (jsTrim (jsOr description ""))
        userId := some uid
        createdAt := some now }
    let row : ProfileRow :=
      { id := newId
        user_id := uid
        name := jsTrim (jsOr name "")
        avatar := jsOr avatar ""
        description := jsTrim (jsOr description "")
        created_at := now }
    (CreateOut.created profile,
     kvSet st (profileKey uid newId) profile,
     upsertProfileRow profs row,
     readOps ++ [StoreOp.kvWrite (profileKey uid newId), StoreOp.mirrorWrite "profiles"])

/-- The list-notes handler (index.ts lines 354–394): every record under the
profile's note key prefix, unfiltered. -/
def listNotes (st : KV) (uid pid : String) : List Item :=
  kvGetByPfx st (notePfx uid pid)

/-- The list-categories handler (index.ts lines 311–351): every record under
the profile's category key prefix, unfiltered. -/
def listCategories (st : KV) (uid pid : String) : List Item :=
  kvGetByPfx st (catPfx uid pid)

/-- The delete-profile handler (index.ts lines 238–308), after
authentication: collect the profile's note and category records, delete the
profile key together with the keys rebuilt from those records' ids from the
key-value store, then delete the profile's `memory_items` rows and its
`profiles` row from the mirror. -/
def deleteProfile (st : KV) (mem : List MemoryRow) (profs : List ProfileRow)
    (uid pid : String) : KV × List MemoryRow × List ProfileRow :=
  let notes := kvGetByPfx st (notePfx uid pid)
  let cats := kvGetByPfx st (catPfx uid pid)
  let keysToDelete :=
    profileKey uid pid ::
      (notes.map (fun n => noteKey uid pid n.id) ++
        cats.map (fun c => catKey uid pid c.id))
  (kvMdel st keysToDelete,
   mem.filter (fun r => !(r.user_id == uid && r.profile_id == pid)),
   profs.filter (fun r => !(r.user_id == uid && r.id == pid)))

/-- A note object of a submit request body. -/
structure NoteIn where
  id : Option String := none
  entry : Option String := none
  categoryId : Option String := none
  createdAt : Option String := none
  deriving DecidableEq, Repr

/-- A category object of a submit request body. -/
structure CatIn where
  id : Option String := none
  name : Option String := none
  createdAt : Option String := none
  deriving DecidableEq, Repr

/-- The `profiles`-table lookup done once per submit call
(`maybeSingle`): the name of the mirror profile row of this user and
profile, if any. -/
def profileNameFor (profs : List ProfileRow) (uid pid : String) : Option String :=
  (List.find? (fun r => r.user_id == uid && r.id == pid) profs).map (·.name)

/-- The note id chosen by the submit handler:
`note.id || crypto.randomUUID()`, with the fresh UUID modelled by
`fallback`. -/
def chosenId (given : Option String) (fallback : String) : String :=
  if jsTruthy given then jsOr given "" else fallback

/-- The key-value record written for one submitted note (index.ts lines
461–473). -/
def mkNoteItem (model : String → List ℚ) (uid pid nid now : String)
    (n : NoteIn) : Item :=
  { id := nid
    entry := n.entry
    categoryId := n.categoryId
    profileId := some pid
    userId := some uid
    embedding := some (generateSimpleEmbedding model (jsOr n.entry ""))
    createdAt := some (jsOr n.createdAt now)
    updatedAt := some now }

/-- The `memory_items` row upserted for one submitted note (index.ts lines
476–485). -/
def mkMemoryRow (model : String → List ℚ) (profs : List ProfileRow)
    (uid pid nid now : String) (n : NoteIn) : MemoryRow :=
  { id := nid
    user_id := uid
    profile_id := pid
    profile_name := profileNameFor profs uid pid
    entry := n.entry
    embedding := generateSimpleEmbedding model (jsOr n.entry "")
    created_at := jsOr n.createdAt now
    updated_at := now }

/-- The key-value record written for one submitted category (index.ts lines
434–447). -/
def mkCatItem (uid pid cid now : String) (c : CatIn) : Item :=
  { id := cid
    name := c.name
    profileId := some pid
    userId := some uid
    createdAt := some (jsOr c.createdAt now) }

/-- The submit handler (index.ts lines 397–507), after authentication: look
up the mirror profile name once, write every category record, and for every
note generate its embedding, write the note record to the key-value store
and upsert the corresponding row into `memory_items`.  The source dispatches
the writes concurrently and awaits them all; the writes of distinct notes
and categories touch distinct keys unless ids collide, and the model applies
them in list order.  Fresh UUIDs are modelled by `genCatId`/`genNoteId`
applied to the item's position. -/
def submit (st : KV) (mem : List MemoryRow) (profs : List ProfileRow)
    (uid pid : String) (model : String → List ℚ)
    (genCatId genNoteId : Nat → String) (now : String)
    (categories : List CatIn) (notes : List NoteIn) : KV × List MemoryRow :=
  let st1 := (categories.enum).foldl
    (fun acc ic =>
      let cid := chosenId ic.2.id (genCatId ic.1)
      kvSet acc (catKey uid pid cid) (mkCatItem uid pid cid now ic.2))
    st
  (notes.enum).foldl
    (fun acc inn =>
      let nid := chosenId inn.2.id (genNoteId inn.1)
      (kvSet acc.1 (noteKey uid pid nid) (mkNoteItem model uid pid nid now inn.2),
       upsertMemory acc.2 (mkMemoryRow model profs uid pid nid now inn.2)))
    (st1, mem)

/-! ## Concrete instances used in counterexamples and witnesses -/

/-- A note record with a defined `entry` but no `embedding` field. -/
def noEmbNote : Item :=
  { id := "n1", entry := some "hat", profileId := some "p1", userId := some "u" }

/-- A store holding only `noEmbNote` under profile `p1` of user `u`. -/
def noEmbStore : KV :=
  [(noteKey "u" "p1" "n1", noEmbNote)]

/-- A category record, exactly as the submit handler would write it for a
category named `Mom` under profile `p1`. -/
def catMomItem : Item :=
  mkCatItem "u" "p1" "c1" "t" { id := some "c1", name := some "Mom" }

/-- A store holding only the category record `catMomItem` — no profile
record at all. -/
def catCexStore : KV :=
  [(catKey "u" "p1" "c1", catMomItem)]

/-- A profile record for user `u`, profile `p1`. -/
def wfProfileItem : Item :=
  { id := "p1", name := some "Mom", description := some "d",
    avatar := some "", userId := some "u", createdAt := some "t" }

/-- A note record of profile `p1` with an embedding. -/
def wfNoteItem : Item :=
  { id := "n1", entry := some "hat", profileId := some "p1",
    userId := some "u", embedding := some [1],
    createdAt := some "t", updatedAt := some "t" }

/-- A category record of profile `p1`. -/
def wfCatItem : Item :=
  mkCatItem "u" "p1" "c1" "t" { id := some "c1", name := some "Likes" }

/-- A well-formed store holding one profile with one note and one category,
every record stored under the key rebuilt from its own id. -/
def wfStore : KV :=
  [(profileKey "u" "p1", wfProfileItem),
   (noteKey "u" "p1" "n1", wfNoteItem),
   (catKey "u" "p1" "c1", wfCatItem)]

/-- The mirror row of `wfNoteItem`. -/
def wfMem : List MemoryRow :=
  [{ id := "n1", user_id := "u", profile_id := "p1",
     profile_name := some "Mom", entry := some "hat", embedding := [1],
     created_at := "t", updated_at := "t" }]

/-- The mirror profile row of `wfProfileItem`. -/
def wfProfs : List ProfileRow :=
  [{ id := "p1", user_id := "u", name := "Mom", avatar := "",
     description := "d", created_at := "t" }]

/-- An already-persisted note record, to be overwritten by a resubmit. -/
def oldNoteItem : Item :=
  { id := "n1", entry := some "old", profileId := some "p1",
    userId := some "u", embedding := some [2],
    createdAt := some "t0", updatedAt := some "t0" }

/-- A store holding only `oldNoteItem`. -/
def c7Store : KV :=
  [(noteKey "u" "p1" "n1", oldNoteItem)]

/-- The mirror row of `oldNoteItem`. -/
def c7Mem : List MemoryRow :=
  [{ id := "n1", user_id := "u", profile_id := "p1",
     profile_name := some "Mom", entry := some "old", embedding := [2],
     created_at := "t0", updated_at := "t0" }]

/-- A resubmitted note carrying the same id `n1` and a changed entry. -/
def c7Note : NoteIn :=
  { id := some "n1", entry := some "new" }

/-- A note submitted without an id. -/
def c7FreshNote : NoteIn :=
  { entry := some "hi" }

/-! ## Helper lemmas -/

open List

theorem simLe_trans (a b c : ScoredNote) (h1 : simLe a b) (h2 : simLe b c) :
    simLe a c := by
  simp only [simLe, decide_eq_true_eq] at *
  exact le_trans h2 h1

theorem simLe_total (a b : ScoredNote) : simLe a b || simLe b a := by
  simp only [simLe, Bool.or_eq_true, decide_eq_true_eq]
  exact le_total b.similarity a.similarity

/-- The stable sort does not reorder the candidates sharing one similarity
value: filtering the sorted list down to one similarity value gives back the
corresponding filtering of the input, in input order. -/
theorem mergeSort_filter_sim (l : List ScoredNote) (s : ℝ) :
    (List.mergeSort l simLe).filter (fun x => decide (x.similarity = s))
      = l.filter (fun x => decide (x.similarity = s)) := by
  set P : ScoredNote → Bool := fun x => decide (x.similarity = s) with hP
  have hperm : List.mergeSort l simLe ~ l := List.mergeSort_perm l simLe
  have hsub : l.filter P <+ List.mergeSort l simLe := by
    apply List.sublist_mergeSort (fun a b c => simLe_trans a b c) simLe_total
    · apply List.pairwise_of_forall_mem_list
      intro a ha b hb
      have hA := List.of_mem_filter ha
      have hB := List.of_mem_filter hb
      simp only [hP, decide_eq_true_eq] at hA hB
      simp only [simLe, hB, hA, decide_eq_true_eq, le_refl]
    · exact List.filter_sublist l
  have hsub2 : l.filter P <+ (List.mergeSort l simLe).filter P := by
    have := hsub.filter P
    rwa [List.filter_filter, show ((fun x => P x && P x) : ScoredNote → Bool) = P by
      funext x; cases hPx : P x <;> simp [hPx]] at this
  have hlen : ((List.mergeSort l simLe).filter P).length = (l.filter P).length :=
    (hperm.filter P).length_eq
  exact (hsub2.eq_of_length hlen.symm).symm

theorem rankNotes_length (q : List ℚ) (notes : List Item) :
    (rankNotes q notes).length = min 10 notes.length := by
  simp [rankNotes]

theorem rankNotes_sorted (q : List ℚ) (notes : List Item) :
    (rankNotes q notes).Pairwise (fun a b => b.similarity ≤ a.similarity) := by
  have h := @List.sorted_mergeSort ScoredNote simLe
    (fun a b c => simLe_trans a b c) simLe_total (notes.map (score q))
  have h2 := h.sublist (List.take_sublist 10 _)
  exact h2.imp (fun hx => by simpa [simLe] using hx)

theorem rankNotes_stable (q : List ℚ) (notes : List Item) (s : ℝ) :
    (rankNotes q notes).filter (fun x => decide (x.similarity = s)) <+:
      (notes.map (score q)).filter (fun x => decide (x.similarity = s)) := by
  set m := List.mergeSort (notes.map (score q)) simLe with hm
  refine ⟨(m.drop 10).filter (fun x => decide (x.similarity = s)), ?_⟩
  rw [rankNotes, ← List.filter_append, List.take_append_drop, mergeSort_filter_sim]

theorem rankNotes_mem_note (q : List ℚ) (notes : List Item) (x : ScoredNote)
    (hx : x ∈ rankNotes q notes) : x.note ∈ notes := by
  have h1 : x ∈ List.mergeSort (notes.map (score q)) simLe :=
    List.take_subset 10 _ hx
  have h2 : x ∈ notes.map (score q) := (List.mem_mergeSort).1 h1
  obtain ⟨n, hn, rfl⟩ := List.mem_map.1 h2
  exact hn

theorem sumSq_eq_zero_of_all_zero (a : List ℚ) (ha : ∀ x ∈ a, x = 0) :
    sumSq a = 0 := by
  induction a with
  | nil => rfl
  | cons x t ih =>
    have hx : x = 0 := ha x (List.mem_cons_self x t)
    have ht : sumSq t = 0 := ih (fun y hy => ha y (List.mem_cons_of_mem x hy))
    simp [sumSq, dotQ, List.zipWith] at *
    simp [hx, ht]

theorem cosineSimilarity_nil_right (a : List ℚ) : cosineSimilarity a [] = 0 := by
  simp [cosineSimilarity]

theorem cosineSimilarity_all_zero_left (a b : List ℚ) (ha : ∀ x ∈ a, x = 0) :
    cosineSimilarity a b = 0 := by
  unfold cosineSimilarity
  split
  · rfl
  next h1 =>
    split
    · rfl
    next h2 =>
      have hs : sumSq a = 0 := sumSq_eq_zero_of_all_zero a ha
      simp [hs]

theorem cosineSimilarity_all_zero_right (a b : List ℚ) (hb : ∀ x ∈ b, x = 0) :
    cosineSimilarity a b = 0 := by
  unfold cosineSimilarity
  split
  · rfl
  next h1 =>
    split
    · rfl
    next h2 =>
      have hs : sumSq b = 0 := sumSq_eq_zero_of_all_zero b hb
      simp [hs]

theorem cosineSimilarity_zeroVec_left (b : List ℚ) :
    cosineSimilarity (List.replicate 768 0) b = 0 :=
  cosineSimilarity_all_zero_left _ b (fun _ hx => List.eq_of_mem_replicate hx)

theorem resolveProfileId_error_shape (st : KV) (uid : String)
    (pid pn : Option String) (e : SearchOut)
    (h : resolveProfileId st uid pid pn = Except.error e) :
    ∃ nm, e = SearchOut.profileNotFound nm := by
  simp only [resolveProfileId] at h
  split at h
  · split at h
    next heq =>
      refine ⟨jsOr pn "", ?_⟩
      have := h
      injection this with h2
      exact h2.symm
    next p l heq => exact absurd h (by simp)
  · exact absurd h (by simp)

/-- Inversion for a ranked search outcome: the result list is exactly the
ranking of the entry-bearing candidates loaded from the resolved scope. -/
theorem searchGifts_ranked_shape (st : KV) (uid : String)
    (model : String → List ℚ) (qv pid pn : Option String)
    (resolved : Option String) (tot : Nat) (r : List ScoredNote)
    (h : (searchGifts st uid model qv pid pn).1 = SearchOut.ranked resolved tot r) :
    r = rankNotes (generateSimpleEmbedding model (jsOr qv ""))
      ((kvGetByPfx st (searchPfx uid resolved)).filter (fun it => it.entry.isSome)) := by
  simp only [searchGifts] at h
  split at h
  · split at h
    next e heq =>
      obtain ⟨nm, rfl⟩ := resolveProfileId_error_shape st uid pid pn e heq
      simp at h
    next resolved2 heq =>
      split at h
      · simp at h
      · simp only at h
        obtain ⟨h1, h2, h3⟩ := SearchOut.ranked.injEq .. |>.mp h
        subst h1
        exact h3.symm
  · simp at h

/-- Inversion of ranked-result membership: every ranked element is the score
of some candidate. -/
theorem rankNotes_mem_shape (q : List ℚ) (notes : List Item) (y : ScoredNote)
    (hy : y ∈ rankNotes q notes) : ∃ n ∈ notes, y = score q n := by
  have h1 : y ∈ List.mergeSort (notes.map (score q)) simLe :=
    List.take_subset 10 _ hy
  have h2 : y ∈ notes.map (score q) := (List.mem_mergeSort).1 h1
  obtain ⟨n, hn, rfl⟩ := List.mem_map.1 h2
  exact ⟨n, hn, rfl⟩

/-- Evaluation of the search handler once the query is a nonempty string and
the profile scope has resolved: the outcome is `noNotes` or `ranked`
according to the candidate set, after exactly one candidate read. -/
theorem searchGifts_resolved_eval (st : KV) (uid : String)
    (model : String → List ℚ) (q : String) (pid pn resolved : Option String)
    (hq : q ≠ "")
    (hres : resolveProfileId st uid pid pn = Except.ok resolved) :
    searchGifts st uid model (some q) pid pn =
      ((if (kvGetByPfx st (searchPfx uid resolved)).filter
            (fun it => it.entry.isSome) = []
        then SearchOut.noNotes
        else SearchOut.ranked resolved
          ((kvGetByPfx st (searchPfx uid resolved)).filter
            (fun it => it.entry.isSome)).length
          (rankNotes (generateSimpleEmbedding model q)
            ((kvGetByPfx st (searchPfx uid resolved)).filter
              (fun it => it.entry.isSome)))),
       resolveOps uid pid pn ++ [StoreOp.kvRead (searchPfx uid resolved)]) := by
  have hqb : jsTruthy (some q) = true := by
    simp [jsTruthy, hq]
  have hjs : jsOr (some q) "" = q := by
    simp [jsOr, hq]
  simp only [searchGifts, hqb, if_true, hres, hjs]
  split <;> rfl

/-- Passing a truthy `profileId` skips name resolution entirely. -/
theorem resolveProfileId_passthrough (st : KV) (uid pid : String)
    (pn : Option String) (hp : pid ≠ "") :
    resolveProfileId st uid (some pid) pn = Except.ok (some pid) := by
  simp [resolveProfileId, jsTruthy, hp]

theorem searchPfx_some (uid pid : String) (hp : pid ≠ "") :
    searchPfx uid (some pid) = notePfx uid pid := by
  simp [searchPfx, jsTruthy, jsOr, hp]

theorem resolveOps_skip (uid pid : String) (pn : Option String) (hp : pid ≠ "") :
    resolveOps uid (some pid) pn = [] := by
  simp [resolveOps, jsTruthy, hp]

theorem hasPfx_append (p x : String) : hasPfx p (p ++ x) = true := by
  cases p with
  | mk pd =>
    cases x with
    | mk xd =>
      show List.isPrefixOf pd (pd ++ xd) = true
      exact List.isPrefixOf_iff_prefix.mpr (List.prefix_append pd xd)

/-- After deleting a key set that covers every key carrying a prefix,
listing by that prefix is empty. -/
theorem kvGetByPfx_mdel_nil (st : KV) (p : String) (ks : List String)
    (h : ∀ e ∈ st, hasPfx p e.1 = true → e.1 ∈ ks) :
    kvGetByPfx (kvMdel st ks) p = [] := by
  simp only [kvGetByPfx, kvMdel]
  rw [List.map_eq_nil_iff, List.filter_eq_nil_iff]
  intro e he hpfx
  have h1 := List.mem_filter.1 he
  have h3 : e.1 ∈ ks := h e h1.1 hpfx
  simp [h3] at h1

theorem kvGet_mdel_of_mem (st : KV) (ks : List String) (k : String)
    (hk : k ∈ ks) : kvGet (kvMdel st ks) k = none := by
  simp only [kvGet, kvMdel]
  cases hfind : List.find? (fun e => e.1 == k)
      (List.filter (fun e => !(List.contains ks e.1)) st) with
  | none => rfl
  | some e =>
    exfalso
    have hemem := List.mem_of_find?_eq_some hfind
    have hpred := List.find?_some hfind
    have hek : e.1 = k := by simpa using hpred
    have h1 := List.mem_filter.1 hemem
    rw [hek] at h1
    simp [hk] at h1

theorem kvGetByPfx_mem (st : KV) (p : String) (e : String × Item)
    (he : e ∈ st) (hp : hasPfx p e.1 = true) : e.2 ∈ kvGetByPfx st p := by
  simp only [kvGetByPfx]
  exact List.mem_map_of_mem _ (List.mem_filter.2 ⟨he, hp⟩)

/-- Overwrite-or-insert: reading back the key just set yields the new
record, whether or not the key was present. -/
theorem kvGet_kvSet (st : KV) (k : String) (v : Item) :
    kvGet (kvSet st k v) k = some v := by
  induction st with
  | nil => simp [kvSet, kvGet]
  | cons e t ih =>
    by_cases hek : (e.1 == k) = true
    · have hany : List.any (e :: t) (fun e => e.1 == k) = true := by
        simp [List.any_cons, hek]
      simp only [kvSet, hany, if_true, List.map_cons, kvGet, List.find?, hek, if_pos]
      simp
    · by_cases hat : List.any t (fun e => e.1 == k) = true
      · have hany : List.any (e :: t) (fun e => e.1 == k) = true := by
          simp [List.any_cons, hat]
        have iht := ih
        simp only [kvSet, hat, if_true] at iht
        simp only [kvSet, hany, if_true, List.map_cons, kvGet, List.find?, hek]
        simpa [kvGet, hek] using iht
      · have hek2 : (e.1 == k) = false := Bool.eq_false_iff.mpr hek
        have hat2 : List.any t (fun e => e.1 == k) = false := Bool.eq_false_iff.mpr hat
        have hany : List.any (e :: t) (fun e => e.1 == k) = false := by
          simp [List.any_cons, hek2, hat2]
        have iht := ih
        simp only [kvSet, hat, if_false] at iht
        simp only [kvSet, hany, if_false, kvGet, List.append, List.find?, hek]
        simpa [kvGet] using iht

theorem kvSet_mem (st : KV) (k : String) (v : Item) : (k, v) ∈ kvSet st k v := by
  by_cases h : List.any st (fun e => e.1 == k) = true
  · simp only [kvSet, h, if_true]
    obtain ⟨e, he, hpred⟩ := List.any_eq_true.1 h
    exact List.mem_map.2 ⟨e, he, by simp [hpred]⟩
  · simp [kvSet, h]

/-- Setting a key that is already bound leaves the key list unchanged: an
overwrite, not a duplicate. -/
theorem kvSet_keys_of_mem (st : KV) (k : String) (v : Item)
    (h : List.any st (fun e => e.1 == k) = true) :
    (kvSet st k v).map (·.1) = st.map (·.1) := by
  simp only [kvSet, h, if_true, List.map_map]
  apply List.map_congr_left
  intro e he
  by_cases hek : (e.1 == k) = true
  · simp [Function.comp, hek]
    exact (eq_of_beq hek).symm
  · simp [Function.comp, hek]

/-- Upserting a row makes it the row found under its id. -/
theorem upsertMemory_find (rows : List MemoryRow) (r : MemoryRow) :
    List.find? (fun x => x.id == r.id) (upsertMemory rows r) = some r := by
  induction rows with
  | nil => simp [upsertMemory, List.find?]
  | cons e t ih =>
    by_cases hek : (e.id == r.id) = true
    · have hany : List.any (e :: t) (fun x => x.id == r.id) = true := by
        simp [List.any_cons, hek]
      simp only [upsertMemory, hany, if_true, List.map_cons, List.find?, hek, if_pos]
      simp
    · by_cases hat : List.any t (fun x => x.id == r.id) = true
      · have hany : List.any (e :: t) (fun x => x.id == r.id) = true := by
          simp [List.any_cons, hat]
        have iht := ih
        simp only [upsertMemory, hat, if_true] at iht
        simp only [upsertMemory, hany, if_true, List.map_cons, List.find?, hek]
        simpa [hek] using iht
      · have hek2 : (e.id == r.id) = false := Bool.eq_false_iff.mpr hek
        have hat2 : List.any t (fun x => x.id == r.id) = false := Bool.eq_false_iff.mpr hat
        have hany : List.any (e :: t) (fun x => x.id == r.id) = false := by
          simp [List.any_cons, hek2, hat2]
        have iht := ih
        simp only [upsertMemory, hat, if_false] at iht
        simp only [upsertMemory, hany, if_false, List.append, List.find?, hek]
        simpa using iht

/-- Upserting a row whose id is already present keeps the id list: an
overwrite, not a duplicate. -/
theorem upsertMemory_ids_of_mem (rows : List MemoryRow) (r : MemoryRow)
    (h : List.any rows (fun x => x.id == r.id) = true) :
    (upsertMemory rows r).map (·.id) = rows.map (·.id) := by
  simp only [upsertMemory, h, if_true, List.map_map]
  apply List.map_congr_left
  intro x hx
  by_cases hek : (x.id == r.id) = true
  · simp [Function.comp, hek]
    exact (eq_of_beq hek).symm
  · simp [Function.comp, hek]

/-- A submit of one note and no categories is a single key-value write and a
single mirror upsert. -/
theorem submit_single_note (st : KV) (mem : List MemoryRow)
    (profs : List ProfileRow) (uid pid : String) (model : String → List ℚ)
    (genCatId genNoteId : Nat → String) (now : String) (n : NoteIn) :
    submit st mem profs uid pid model genCatId genNoteId now [] [n] =
      (kvSet st (noteKey uid pid (chosenId n.id (genNoteId 0)))
        (mkNoteItem model uid pid (chosenId n.id (genNoteId 0)) now n),
       upsertMemory mem
        (mkMemoryRow model profs uid pid (chosenId n.id (genNoteId 0)) now n)) := rfl

/-! ## Claims -/

/-- Claim C1: for every candidate note set, the `scoredNotes` stage of the
search operation returns the candidates sorted by cosine similarity to the
query embedding in descending order, with ties broken by the candidates'
original order (stable sort), truncated so the result length is exactly
`min 10 candidateCount`.  Tie stability is stated as: restricting the
result to the candidates of any one similarity value yields, in order, an
initial segment of the same restriction of the scored input. -/
theorem search_results_sorted_stable_topk (q : List ℚ) (notes : List Item) :
    (rankNotes q notes).length = min 10 notes.length ∧
    (rankNotes q notes).Pairwise (fun a b => b.similarity ≤ a.similarity) ∧
    (∀ s : ℝ, (rankNotes q notes).filter (fun x => decide (x.similarity = s)) <+:
      (notes.map (score q)).filter (fun x => decide (x.similarity = s))) :=
  ⟨rankNotes_length q notes, rankNotes_sorted q notes,
   fun s => rankNotes_stable q notes s⟩

/-- Claim C2: `cosineSimilarity` returns exactly 0 when either input is
empty, either input is the all-zero vector, or the two lengths differ.  The
model is a total function into `ℝ`, which is how "never throws and never
returns NaN" is rendered: every degenerate case is caught by a guard
returning the real number 0, so one degenerate note cannot abort scoring of
the others. -/
theorem cosineSimilarity_degenerate_inputs (a b : List ℚ)
    (h : a = [] ∨ b = [] ∨ a.length ≠ b.length ∨
      (∀ x ∈ a, x = 0) ∨ (∀ x ∈ b, x = 0)) :
    cosineSimilarity a b = 0 := by
  rcases h with h | h | h | h | h
  · subst h
    simp [cosineSimilarity]
  · subst h
    exact cosineSimilarity_nil_right a
  · by_cases h0 : a.length = 0 ∨ b.length = 0
    · rw [cosineSimilarity, if_pos h0]
    · rw [cosineSimilarity, if_neg h0, if_pos h]
  · exact cosineSimilarity_all_zero_left a b h
  · exact cosineSimilarity_all_zero_right a b h

/-- Witness for claim C2 at concrete inputs: an all-zero left vector, and a
pair of vectors of different lengths. -/
theorem cosineSimilarity_degenerate_inputs_witness :
    cosineSimilarity [0, 0] [1, 2] = 0 ∧ cosineSimilarity [1] [1, 2] = 0 :=
  ⟨cosineSimilarity_degenerate_inputs [0, 0] [1, 2]
      (Or.inr (Or.inr (Or.inr (Or.inl (by decide))))),
   cosineSimilarity_degenerate_inputs [1] [1, 2]
      (Or.inr (Or.inr (Or.inl (by decide))))⟩

/-- Evaluation of the search handler on `noEmbStore`: the embeddingless note
is returned as the single ranked result, scored 0. -/
theorem searchGifts_noEmbStore_eval :
    (searchGifts noEmbStore "u" (fun _ => [1]) (some "gift") (some "p1") none).1
      = SearchOut.ranked (some "p1") 1 [⟨noEmbNote, 0⟩] := by
  have h1 : resolveProfileId noEmbStore "u" (some "p1") none
      = Except.ok (some "p1") := rfl
  have h2 : (kvGetByPfx noEmbStore (searchPfx "u" (some "p1"))).filter
      (fun it => it.entry.isSome) = [noEmbNote] := by decide
  simp only [searchGifts, h1, h2]
  norm_num [rankNotes, score, noEmbNote, cosineSimilarity_nil_right, jsTruthy, jsOr]
  rw [if_neg (by decide : ¬ ("gift" = ""))]

/-- Claim C3 counterexample: a note that has no generated embedding does
appear in the ranked results — on a store whose only note lacks an
embedding, the search returns that note (scored 0) rather than excluding
it. -/
theorem note_without_embedding_ranked_cex :
    noEmbNote.embedding = none ∧
    (searchGifts noEmbStore "u" (fun _ => [1]) (some "gift") (some "p1") none).1
      = SearchOut.ranked (some "p1") 1 [⟨noEmbNote, 0⟩] :=
  ⟨rfl, searchGifts_noEmbStore_eval⟩

/-- Claim C3 (amended): search eligibility is determined by the presence of
the `entry` field, not of an embedding — every note in a ranked result has a
defined `entry`, while a note without an embedding is still eligible and is
scored with similarity 0 (its missing embedding is replaced by `[]`). -/
theorem search_eligibility_entry_not_embedding :
    (∀ (q : List ℚ) (note : Item), note.embedding = none →
      (score q note).similarity = 0) ∧
    (∀ (st : KV) (uid : String) (model : String → List ℚ)
      (qv pid pn resolved : Option String) (tot : Nat) (r : List ScoredNote),
      (searchGifts st uid model qv pid pn).1 = SearchOut.ranked resolved tot r →
      ∀ y ∈ r, y.note.entry.isSome = true) := by
  constructor
  · intro q note h
    simp [score, h, cosineSimilarity_nil_right]
  · intro st uid model qv pid pn resolved tot r h y hy
    have hr := searchGifts_ranked_shape st uid model qv pid pn resolved tot r h
    subst hr
    have hmem := rankNotes_mem_note _ _ y hy
    exact (List.mem_filter.1 hmem).2

/-- Witness for the amended claim C3, at the `noEmbStore` search: the
embeddingless note is scored 0, and the single ranked result has a defined
entry. -/
theorem search_eligibility_entry_not_embedding_witness :
    (score [1] noEmbNote).similarity = 0 ∧
    (ScoredNote.mk noEmbNote 0).note.entry.isSome = true :=
  ⟨search_eligibility_entry_not_embedding.1 [1] noEmbNote rfl,
   search_eligibility_entry_not_embedding.2 noEmbStore "u" (fun _ => [1])
     (some "gift") (some "p1") none (some "p1") 1 [⟨noEmbNote, 0⟩]
     searchGifts_noEmbStore_eval ⟨noEmbNote, 0⟩ (by simp)⟩

/-- Claim C4 counterexample: for the empty query string the search does not
embed anything and does not return a ranked result — the `!query` validation
rejects `""` with the 400 "Query string is required" outcome, before any
store access. -/
theorem empty_query_rejected_cex :
    searchGifts [] "u" (fun _ => []) (some "") none none
      = (SearchOut.invalidQuery, []) := rfl

set_option maxRecDepth 8000

/-- Claim C4 (amended): for a whitespace-only (but nonempty) query string,
the query is embedded as the zero vector of the provider's fixed length 768
without invoking the remote model (the result does not depend on the model),
which yields similarity 0 against every candidate, and the search still
returns a `noNotes`/`ranked` outcome rather than an error; the empty query
string `""` is instead rejected by validation as shown by the
counterexample. -/
theorem whitespace_query_zero_vector (model : String → List ℚ) (q : String)
    (hq : q ≠ "") (ht : jsTrim q = "") :
    generateSimpleEmbedding model q = List.replicate 768 0 ∧
    (∀ m2 : String → List ℚ,
      generateSimpleEmbedding model q = generateSimpleEmbedding m2 q) ∧
    (∀ v : List ℚ, cosineSimilarity (generateSimpleEmbedding model q) v = 0) ∧
    (∀ (st : KV) (uid pid : String), pid ≠ "" →
      (searchGifts st uid model (some q) (some pid) none).1 =
        (if (kvGetByPfx st (notePfx uid pid)).filter (fun it => it.entry.isSome) = []
         then SearchOut.noNotes
         else SearchOut.ranked (some pid)
           ((kvGetByPfx st (notePfx uid pid)).filter (fun it => it.entry.isSome)).length
           (rankNotes (List.replicate 768 0)
             ((kvGetByPfx st (notePfx uid pid)).filter (fun it => it.entry.isSome))))) ∧
    (∀ (notes : List Item) (y : ScoredNote),
      y ∈ rankNotes (List.replicate 768 0) notes → y.similarity = 0) := by
  have hemb : generateSimpleEmbedding model q = List.replicate 768 0 := by
    simp [generateSimpleEmbedding, ht]
  refine ⟨hemb, ?_, ?_, ?_, ?_⟩
  · intro m2
    simp [generateSimpleEmbedding, ht]
  · intro v
    rw [hemb]
    exact cosineSimilarity_zeroVec_left v
  · intro st uid pid hp
    rw [searchGifts_resolved_eval st uid model q (some pid) none (some pid) hq
      (resolveProfileId_passthrough st uid pid none hp)]
    simp only [searchPfx_some uid pid hp, hemb]
  · intro notes y hy
    obtain ⟨n, hn, rfl⟩ := rankNotes_mem_shape _ _ y hy
    show cosineSimilarity (List.replicate 768 0) (n.embedding.getD []) = 0
    exact cosineSimilarity_zeroVec_left _

/-- Witness for the amended claim C4: a one-space query on the empty store
embeds to the zero vector and the search answers `noNotes`, not an error. -/
theorem whitespace_query_zero_vector_witness :
    generateSimpleEmbedding (fun _ => [1, 2]) " " = List.replicate 768 0 ∧
    (searchGifts [] "u" (fun _ => [1, 2]) (some " ") (some "p1") none).1
      = SearchOut.noNotes := by
  obtain ⟨h1, h2, h3, h4, h5⟩ := whitespace_query_zero_vector (fun _ => [1, 2]) " "
    (by decide) (by decide)
  refine ⟨h1, ?_⟩
  have hh := h4 [] "u" "p1" (by decide)
  have he : (kvGetByPfx ([] : KV) (notePfx "u" "p1")).filter
      (fun it => it.entry.isSome) = [] := rfl
  rw [he, if_pos rfl] at hh
  exact hh

/-- Claim C5, code evaluated at the failing input: name resolution matches
ANY record under the user's key namespace carrying a matching `name` field,
not only profiles.  On a store containing no profile record at all but one
category record named `Mom` (exactly as the submit handler writes it),
resolving the name `mom` — or its case/whitespace variant `" MOM "` —
succeeds and returns the category's id `c1` instead of failing with
ProfileNotFound. -/
theorem name_resolution_matches_category_record :
    resolveProfileId catCexStore "u" none (some "mom") = Except.ok (some "c1") ∧
    resolveProfileId catCexStore "u" none (some " MOM ") = Except.ok (some "c1") ∧
    (kvGetByPfx catCexStore (userPfx "u")).filter isProfileShaped = [] :=
  ⟨rfl, rfl, rfl⟩

/-- Claim C6: deleting a profile removes the profile record together with
all of the profile's note and category records from the key-value store and
all of its mirror rows (`memory_items`) and its mirror profile record, so
subsequent `listNotes`/`listCategories` calls and searches scoped to the
profile no longer see them.  The two hypotheses say the store is well formed
for this profile: every record stored under the note (resp. category) key
namespace sits at the key rebuilt from its own `id` — which is what the
handler relies on when it rebuilds the keys to delete from the listed
records. -/
theorem deleteProfile_cascades
    (st : KV) (mem : List MemoryRow) (profs : List ProfileRow) (uid pid : String)
    (hn : ∀ e ∈ st, hasPfx (notePfx uid pid) e.1 = true →
      e.1 = noteKey uid pid e.2.id)
    (hc : ∀ e ∈ st, hasPfx (catPfx uid pid) e.1 = true →
      e.1 = catKey uid pid e.2.id) :
    listNotes (deleteProfile st mem profs uid pid).1 uid pid = [] ∧
    listCategories (deleteProfile st mem profs uid pid).1 uid pid = [] ∧
    kvGet (deleteProfile st mem profs uid pid).1 (profileKey uid pid) = none ∧
    (∀ r ∈ (deleteProfile st mem profs uid pid).2.1,
      ¬(r.user_id = uid ∧ r.profile_id = pid)) ∧
    (∀ r ∈ (deleteProfile st mem profs uid pid).2.2,
      ¬(r.user_id = uid ∧ r.id = pid)) ∧
    (∀ (model : String → List ℚ) (q : String), q ≠ "" → pid ≠ "" →
      (searchGifts (deleteProfile st mem profs uid pid).1 uid model (some q)
        (some pid) none).1 = SearchOut.noNotes) := by
  have hnotes : listNotes (deleteProfile st mem profs uid pid).1 uid pid = [] := by
    apply kvGetByPfx_mdel_nil
    intro e he hp
    rw [hn e he hp]
    apply List.mem_cons_of_mem
    apply List.mem_append_left
    exact List.mem_map_of_mem _ (kvGetByPfx_mem st _ e he hp)
  refine ⟨hnotes, ?_, ?_, ?_, ?_, ?_⟩
  · apply kvGetByPfx_mdel_nil
    intro e he hp
    rw [hc e he hp]
    apply List.mem_cons_of_mem
    apply List.mem_append_right
    exact List.mem_map_of_mem _ (kvGetByPfx_mem st _ e he hp)
  · exact kvGet_mdel_of_mem st _ _ (List.mem_cons_self _ _)
  · intro r hr
    have h2 := (List.mem_filter.1 hr).2
    simp only [Bool.not_eq_true', Bool.and_eq_false_iff] at h2
    rintro ⟨h3, h4⟩
    rcases h2 with h2 | h2 <;> simp [h3, h4] at h2
  · intro r hr
    have h2 := (List.mem_filter.1 hr).2
    simp only [Bool.not_eq_true', Bool.and_eq_false_iff] at h2
    rintro ⟨h3, h4⟩
    rcases h2 with h2 | h2 <;> simp [h3, h4] at h2
  · intro model q hq hp
    rw [searchGifts_resolved_eval _ uid model q (some pid) none (some pid) hq
      (resolveProfileId_passthrough _ uid pid none hp)]
    simp only [searchPfx_some uid pid hp]
    have hz : kvGetByPfx (deleteProfile st mem profs uid pid).1
        (notePfx uid pid) = [] := hnotes
    rw [hz]
    rfl

/-- Witness for claim C6 on the well-formed one-profile store: after the
delete, the notes and categories are gone, the profile record is gone, and
a search scoped to the profile answers `noNotes`. -/
theorem deleteProfile_cascades_witness :
    listNotes (deleteProfile wfStore wfMem wfProfs "u" "p1").1 "u" "p1" = [] ∧
    listCategories (deleteProfile wfStore wfMem wfProfs "u" "p1").1 "u" "p1" = [] ∧
    kvGet (deleteProfile wfStore wfMem wfProfs "u" "p1").1 (profileKey "u" "p1")
      = none ∧
    (searchGifts (deleteProfile wfStore wfMem wfProfs "u" "p1").1 "u"
      (fun _ => [1]) (some "g") (some "p1") none).1 = SearchOut.noNotes := by
  obtain ⟨h1, h2, h3, h4, h5, h6⟩ :=
    deleteProfile_cascades wfStore wfMem wfProfs "u" "p1" (by decide) (by decide)
  exact ⟨h1, h2, h3, h6 (fun _ => [1]) "g" (by decide) (by decide)⟩

/-- Claim C7: submit is idempotent on note identifiers.  Resubmitting a note
whose (truthy) id is already bound in the key-value store keeps the key list
unchanged and overwrites the bound record; the mirror upsert keyed on the id
likewise keeps the id list unchanged and replaces the row.  A note submitted
without an id is assigned the fresh one and its record is retrievable via
`listNotes`. -/
theorem submit_idempotent_on_note_ids
    (st : KV) (mem : List MemoryRow) (profs : List ProfileRow)
    (uid pid : String) (model : String → List ℚ)
    (genCatId genNoteId : Nat → String) (now : String) (n : NoteIn) (i : String) :
    (n.id = some i → i ≠ "" →
      ((List.any st (fun e => e.1 == noteKey uid pid i) = true →
        (submit st mem profs uid pid model genCatId genNoteId now [] [n]).1.map (·.1)
          = st.map (·.1)) ∧
       kvGet (submit st mem profs uid pid model genCatId genNoteId now [] [n]).1
          (noteKey uid pid i) = some (mkNoteItem model uid pid i now n) ∧
       (List.any mem (fun x => x.id == i) = true →
        (submit st mem profs uid pid model genCatId genNoteId now [] [n]).2.map (·.id)
          = mem.map (·.id)) ∧
       List.find? (fun x => x.id == i)
          (submit st mem profs uid pid model genCatId genNoteId now [] [n]).2
          = some (mkMemoryRow model profs uid pid i now n))) ∧
    (jsTruthy n.id = false →
      (kvGet (submit st mem profs uid pid model genCatId genNoteId now [] [n]).1
          (noteKey uid pid (genNoteId 0))
          = some (mkNoteItem model uid pid (genNoteId 0) now n) ∧
       mkNoteItem model uid pid (genNoteId 0) now n ∈
         listNotes (submit st mem profs uid pid model genCatId genNoteId now [] [n]).1
           uid pid)) := by
  constructor
  · intro hid hi
    have hch : chosenId n.id (genNoteId 0) = i := by
      simp [chosenId, hid, jsTruthy, jsOr, hi]
    rw [submit_single_note, hch]
    refine ⟨?_, ?_, ?_, ?_⟩
    · intro hany
      exact kvSet_keys_of_mem st _ _ hany
    · exact kvGet_kvSet st _ _
    · intro hany
      have hrid : (mkMemoryRow model profs uid pid i now n).id = i := rfl
      have := upsertMemory_ids_of_mem mem (mkMemoryRow model profs uid pid i now n)
        (by simpa [hrid] using hany)
      simpa using this
    · have := upsertMemory_find mem (mkMemoryRow model profs uid pid i now n)
      simpa using this
  · intro hid
    have hch : chosenId n.id (genNoteId 0) = genNoteId 0 := by
      simp [chosenId, hid]
    rw [submit_single_note, hch]
    refine ⟨kvGet_kvSet st _ _, ?_⟩
    apply kvGetByPfx_mem _ _
      (noteKey uid pid (genNoteId 0), mkNoteItem model uid pid (genNoteId 0) now n)
      (kvSet_mem st _ _)
    exact hasPfx_append _ _

/-- Witness for claim C7: resubmitting `n1` with a changed entry keeps the
store's key list and the mirror's id list and overwrites the record; a note
submitted without an id lands under the generated id `N`. -/
theorem submit_idempotent_on_note_ids_witness :
    ((submit c7Store c7Mem [] "u" "p1" (fun _ => [1]) (fun _ => "C")
        (fun _ => "N") "t1" [] [c7Note]).1.map (·.1) = c7Store.map (·.1)) ∧
    kvGet (submit c7Store c7Mem [] "u" "p1" (fun _ => [1]) (fun _ => "C")
        (fun _ => "N") "t1" [] [c7Note]).1 (noteKey "u" "p1" "n1")
      = some (mkNoteItem (fun _ => [1]) "u" "p1" "n1" "t1" c7Note) ∧
    ((submit c7Store c7Mem [] "u" "p1" (fun _ => [1]) (fun _ => "C")
        (fun _ => "N") "t1" [] [c7Note]).2.map (·.id) = c7Mem.map (·.id)) ∧
    kvGet (submit [] [] [] "u" "p1" (fun _ => [1]) (fun _ => "C")
        (fun _ => "N") "t1" [] [c7FreshNote]).1 (noteKey "u" "p1" "N")
      = some (mkNoteItem (fun _ => [1]) "u" "p1" "N" "t1" c7FreshNote) := by
  obtain ⟨h1, _⟩ := submit_idempotent_on_note_ids c7Store c7Mem [] "u" "p1"
    (fun _ => [1]) (fun _ => "C") (fun _ => "N") "t1" c7Note "n1"
  obtain ⟨ha, hb, hc, _⟩ := h1 rfl (by decide)
  obtain ⟨_, h2⟩ := submit_idempotent_on_note_ids [] [] [] "u" "p1"
    (fun _ => [1]) (fun _ => "C") (fun _ => "N") "t1" c7FreshNote "x"
  exact ⟨ha (by decide), hb, hc (by decide), (h2 rfl).1⟩

/-- Claim C8 counterexample: a createProfile call with a missing name fails
validation, but its store-operation trace is not empty — the profile-limit
check reads the user's records from the key-value store before the
validation error is returned. -/
theorem createProfile_missing_name_reads_store_cex :
    createProfile [] [] "u" none none (some "d") "id1" "t"
      = (CreateOut.invalidInput "Profile name is required", [], [],
         [StoreOp.kvRead (userPfx "u")]) := rfl

/-- Claim C8 (amended): search's missing-query validation error is returned
before any store operation (empty trace); createProfile's validation errors
are returned before any store write and leave both stores unchanged, but
after the one store read performed by the profile-limit check. -/
theorem validation_errors_store_access :
    (∀ (st : KV) (uid : String) (model : String → List ℚ)
      (q pid pn : Option String), jsTruthy q = false →
      searchGifts st uid model q pid pn = (SearchOut.invalidQuery, [])) ∧
    (∀ (st : KV) (profs : List ProfileRow) (uid : String)
      (name avatar descr : Option String) (newId now msg : String),
      (createProfile st profs uid name avatar descr newId now).1
        = CreateOut.invalidInput msg →
      createProfile st profs uid name avatar descr newId now
        = (CreateOut.invalidInput msg, st, profs, [StoreOp.kvRead (userPfx uid)])) := by
  constructor
  · intro st uid model q pid pn hq
    simp [searchGifts, hq]
  · intro st profs uid name avatar descr newId now msg h
    by_cases h5 : 5 ≤ ((kvGetByPfx st (userPfx uid)).filter isProfileShaped).length
    · simp [createProfile, h5] at h
    · by_cases hn : (!jsTruthy name || jsTrim (jsOr name "") = "") = true
      · simp only [createProfile, h5, if_false, hn, if_true] at h ⊢
        simp at h
        simp [← h]
      · by_cases hd : (!jsTruthy descr || jsTrim (jsOr descr "") = "") = true
        · simp only [createProfile, h5, if_false, hn, hd, if_true] at h ⊢
          simp at h
          simp [← h]
        · simp [createProfile, h5, hn, hd] at h

/-- Witness for the amended claim C8: a missing query yields the validation
error with an empty trace; a whitespace-only profile name yields the
validation error with exactly the limit-check read and unchanged stores. -/
theorem validation_errors_store_access_witness :
    searchGifts [] "u" (fun _ => [1]) none none none
      = (SearchOut.invalidQuery, []) ∧
    createProfile [] [] "u" (some " ") none (some "d") "id1" "t"
      = (CreateOut.invalidInput "Profile name is required", [], [],
         [StoreOp.kvRead (userPfx "u")]) :=
  ⟨validation_errors_store_access.1 [] "u" (fun _ => [1]) none none none rfl,
   validation_errors_store_access.2 [] [] "u" (some " ") none (some "d")
     "id1" "t" "Profile name is required" (by decide)⟩

/-- Claim C9: a search whose query is a nonempty string and whose scope
resolution succeeded, over an empty candidate note set, returns the
distinct `noNotes` outcome (the `gifts: [], matchedNotes: [], "No notes
found…"` response) after its candidate read — never an error. -/
theorem search_empty_candidates_no_notes
    (st : KV) (uid : String) (model : String → List ℚ) (q : String)
    (pid pn resolved : Option String) (hq : q ≠ "")
    (hres : resolveProfileId st uid pid pn = Except.ok resolved)
    (hempty : (kvGetByPfx st (searchPfx uid resolved)).filter
      (fun it => it.entry.isSome) = []) :
    searchGifts st uid model (some q) pid pn
      = (SearchOut.noNotes,
         resolveOps uid pid pn ++ [StoreOp.kvRead (searchPfx uid resolved)]) := by
  rw [searchGifts_resolved_eval st uid model q pid pn resolved hq hres, hempty]
  rfl

/-- Witness for claim C9: an unscoped search over the empty store. -/
theorem search_empty_candidates_no_notes_witness :
    searchGifts [] "u" (fun _ => [1]) (some "g") none none
      = (SearchOut.noNotes, [StoreOp.kvRead (userPfx "u")]) := by
  have h := search_empty_candidates_no_notes [] "u" (fun _ => [1]) "g"
    none none none (by decide) rfl rfl
  simpa using h

/-- Claim C10: a search that supplies an explicit (truthy) profileId skips
name resolution — the resolver passes the id through with no existence
check — so the call can never fail with the 404 ProfileNotFound outcome,
and when no note records exist under that id it returns the `noNotes`
response instead of an error. -/
theorem explicit_profile_id_never_not_found
    (st : KV) (uid : String) (model : String → List ℚ) (q pid : String)
    (pn : Option String) (hq : q ≠ "") (hp : pid ≠ "") :
    resolveProfileId st uid (some pid) pn = Except.ok (some pid) ∧
    (∀ nm, (searchGifts st uid model (some q) (some pid) pn).1
      ≠ SearchOut.profileNotFound nm) ∧
    ((kvGetByPfx st (notePfx uid pid)).filter (fun it => it.entry.isSome) = [] →
      (searchGifts st uid model (some q) (some pid) pn).1 = SearchOut.noNotes) := by
  have hres := resolveProfileId_passthrough st uid pid pn hp
  have heval := searchGifts_resolved_eval st uid model q (some pid) pn (some pid) hq hres
  refine ⟨hres, ?_, ?_⟩
  · intro nm
    rw [heval]
    simp only [searchPfx_some uid pid hp]
    split <;> simp
  · intro hempty
    rw [heval]
    simp only [searchPfx_some uid pid hp]
    rw [hempty]
    rfl

/-- Witness for claim C10: an explicit profileId matching nothing, with a
profileName supplied as well, returns `noNotes` rather than 404. -/
theorem explicit_profile_id_never_not_found_witness :
    resolveProfileId [] "u" (some "p1") (some "Missing") = Except.ok (some "p1") ∧
    (searchGifts [] "u" (fun _ => [1]) (some "g") (some "p1") (some "Missing")).1
      = SearchOut.noNotes := by
  obtain ⟨h1, h2, h3⟩ := explicit_profile_id_never_not_found [] "u" (fun _ => [1])
    "g" "p1" (some "Missing") (by decide) (by decide)
  exact ⟨h1, h3 rfl⟩

end GiveAGift
